import Mathlib

/-!
Verification of the user CRUD service of this repository.

The development shallowly embeds the Python source:
* `app/requests/user.py`   — request validation models (`UserCreateRequest`,
  `UserUpdateRequest` and their `check_name` validators);
* `app/responses/user.py`  — response models (`UserResponse`,
  `UserCreateResponse`, `UserUpdateResponse`);
* `app/services/user.py`   — `UserService` (`all`, `save`, `update`,
  `delete`, `bulk_delete`, `find`, `get_by_id`);
* `routes/users.py`        — the HTTP route handlers, modelled by the HTTP
  status code they produce for each service outcome.

Datetimes are modelled as integers (only their ordering and equality matter
to the service), `strftime` as an injective rendering to a string, and the
ORM session as a pair of committed and pending user tables, with `commit`
either atomically publishing the pending table or failing, and `rollback`
restoring the pending table from the committed one.
-/

/-- Modelled from the spec: the `User` ORM entity (its module
`app/models/user.py` is not part of the sources at hand; the spec describes
"CRUD endpoints for a single `User` entity" and the request/response models
document its columns `id`, `username`, `email`, `password`, `created_at`,
`updated_at`). -/
structure User where
  id : Nat
  username : String
  email : String
  password : String
  created_at : Int
  updated_at : Int
deriving DecidableEq

/-- Modelled from the spec: `hasattr(User, name)` for the `User` model,
restricted to the model's own columns. -/
def userHasAttr (name : String) : Bool :=
  name = "id" ∨ name = "username" ∨ name = "email" ∨ name = "password" ∨
    name = "created_at" ∨ name = "updated_at"

/-- Errors of `app/exceptions/user.py` (module not under the sources at
hand; the exception classes are plain marker classes, raised and caught by
name), plus `valueError` for Python's builtin `ValueError` and `dbError`
for a database exception surfacing from a failing commit. -/
inductive UserError where
  | userNotFound (msg : String)
  | duplicateUser (msg : String)
  | invalidSortField (msg : String)
  | valueError (msg : String)
  | dbError (msg : String)
deriving DecidableEq

/-- Python's `str.strip()` (whitespace stripped from both ends). -/
def pyStrip (s : String) : String :=
  ⟨((s.data.dropWhile Char.isWhitespace).reverse.dropWhile Char.isWhitespace).reverse⟩

/-- Abstraction of `datetime.strftime("%Y-%m-%d %H:%M:%S")`: an injective
rendering of the timestamp; no claim depends on the concrete format. -/
def formatTimestamp (t : Int) : String := toString t

/-- `UserCreateRequest` of `app/requests/user.py`: `username`, `email` and
`password` are required; `created_at` / `updated_at` carry the timestamps
used for the new row. -/
structure UserCreateRequest where
  username : String
  email : String
  password : String
  created_at : Int
  updated_at : Int
deriving DecidableEq

/-- `UserUpdateRequest` of `app/requests/user.py`: every field is optional;
`some` models a field explicitly set in the request (pydantic's
`exclude_unset` keeps exactly those), `none` a field left unset. -/
structure UserUpdateRequest where
  username : Option String := none
  email : Option String := none
  password : Option String := none
  created_at : Option Int := none
  updated_at : Option Int := none
deriving DecidableEq

/-- The `check_name` validator of `UserCreateRequest`. -/
def UserCreateRequest.check_name (value : String) : Except String String :=
  if pyStrip value = "" then .error "The name field is required"
  else if value.length < 3 then .error "Name must be at least 3 characters long"
  else if value.length > 50 then .error "Name must be at most 50 characters long"
  else .ok value

/-- The `check_name` validator of `UserUpdateRequest` (skips `None`). -/
def UserUpdateRequest.check_name (value : Option String) :
    Except String (Option String) :=
  match value with
  | none => .ok none
  | some v =>
      if pyStrip v = "" then .error "The name field is required"
      else if v.length < 3 then .error "Name must be at least 3 characters long"
      else if v.length > 20 then .error "Name must be at most 20 characters long"
      else .ok (some v)

/-- `UserResponse` of `app/responses/user.py`: id, username, email and the
two formatted timestamps — no password field. -/
structure UserResponse where
  id : Nat
  username : String
  email : String
  created_at : String
  updated_at : String
deriving DecidableEq

/-- `UserCreateResponse` of `app/responses/user.py`. -/
structure UserCreateResponse where
  id : Nat
  username : String
  email : String
  created_at : String
  updated_at : String
deriving DecidableEq

/-- `UserUpdateResponse` of `app/responses/user.py`. -/
structure UserUpdateResponse where
  id : Nat
  username : String
  email : String
  created_at : String
  updated_at : String
deriving DecidableEq

/-- `UserService._user_to_response`. -/
def UserService.user_to_response (u : User) : UserResponse :=
  { id := u.id, username := u.username, email := u.email,
    created_at := formatTimestamp u.created_at,
    updated_at := formatTimestamp u.updated_at }

/-- `UserService.get_by_id` over the user table: first row with the id, or
`UserNotFoundError`. -/
def UserService.get_by_id (db : List User) (id : Nat) : Except UserError User :=
  match db.find? (fun u => u.id == id) with
  | some u => .ok u
  | none => .error (.userNotFound ("User with ID " ++ toString id ++ " not found"))

/-- Comparison by the column `getattr(User, sort_by)` (defaulting to `id`,
the service's default sort field). -/
def fieldLe (sort_by : String) (u v : User) : Bool :=
  if sort_by = "username" then decide (u.username ≤ v.username)
  else if sort_by = "email" then decide (u.email ≤ v.email)
  else if sort_by = "password" then decide (u.password ≤ v.password)
  else if sort_by = "created_at" then decide (u.created_at ≤ v.created_at)
  else if sort_by = "updated_at" then decide (u.updated_at ≤ v.updated_at)
  else decide (u.id ≤ v.id)

/-- Insert into a sorted list (auxiliary to `insertionSort`). -/
def insertSorted (le : α → α → Bool) (x : α) : List α → List α
  | [] => [x]
  | y :: ys => if le x y then x :: y :: ys else y :: insertSorted le x ys

/-- A stable sort modelling the ORM's `ORDER BY`. -/
def insertionSort (le : α → α → Bool) : List α → List α
  | [] => []
  | x :: xs => insertSorted le x (insertionSort le xs)

/-- `ORDER BY asc(col)` / `ORDER BY desc(col)` on the user table. -/
def sortUsers (sort_type sort_by : String) (l : List User) : List User :=
  if sort_type = "asc" then insertionSort (fieldLe sort_by) l
  else insertionSort (fun a b => fieldLe sort_by b a) l

/-- One optional filter step: `if arg: query = query.filter(...)` for an
argument whose Python truthiness is just being non-`None`. -/
def optFilter (o : Option β) (f : β → α → Bool) (l : List α) : List α :=
  match o with
  | some b => l.filter (f b)
  | none => l

/-- The `username` filter step of `UserService.all`: Python's
`if username:` skips both `None` and the empty string. -/
def usernameFilter (username : Option String) (db : List User) : List User :=
  match username with
  | some u => if u = "" then db else db.filter (fun x => x.username == u)
  | none => db

/-- The filter chain of `UserService.all`, lines 106–111 of
`app/services/user.py`: a non-empty `username` filters by equality,
`start_date` and `end_date` bound `created_at` inclusively. The `email`
argument appears in no filter in the source. -/
def UserService.filtered (db : List User) (username : Option String)
    (start_date end_date : Option Int) : List User :=
  optFilter end_date (fun e x => decide (x.created_at ≤ e))
    (optFilter start_date (fun s x => decide (s ≤ x.created_at))
      (usernameFilter username db))

/-- `UserService.all` before the response mapping: the page of raw users
together with `(total, last_page, first_item, last_item)`. Mirrors the
source order: the `sort_type` check first, then the filter chain, then the
`hasattr` check on `sort_by`, then ordering, slicing and counting.
`last_page` is Python's `(total - 1) // items_per_page + 1`, a floor
division, hence `Int.fdiv`. -/
def UserService.allQuery (db : List User) (page items_per_page : Nat)
    (sort_type sort_by : String) (email username : Option String)
    (start_date end_date : Option Int) :
    Except UserError (List User × Nat × Int × Nat × Nat) :=
  if sort_type ≠ "asc" ∧ sort_type ≠ "desc" then
    .error (.valueError "Invalid sort type; must be 'asc' or 'desc'")
  else
    let offset := (page - 1) * items_per_page
    let q := UserService.filtered db username start_date end_date
    if ¬ userHasAttr sort_by then
      .error (.invalidSortField "Invalid sort field")
    else
      let sorted := sortUsers sort_type sort_by q
      let users := (sorted.drop offset).take items_per_page
      let total := sorted.length
      .ok (users, total,
        ((total : Int) - 1).fdiv (items_per_page : Int) + 1,
        offset + 1,
        min (offset + items_per_page) total)

/-- `UserService.all`: `allQuery` with the page mapped to responses. -/
def UserService.all (db : List User) (page items_per_page : Nat)
    (sort_type sort_by : String) (email username : Option String)
    (start_date end_date : Option Int) :
    Except UserError (List UserResponse × Nat × Int × Nat × Nat) :=
  match UserService.allQuery db page items_per_page sort_type sort_by
      email username start_date end_date with
  | .error e => .error e
  | .ok (users, total, last_page, first_item, last_item) =>
      .ok (users.map UserService.user_to_response, total, last_page,
        first_item, last_item)

/-- `UserService.save`: duplicate-email check, then insert the new row with
the hashed password; returns the outcome and the resulting user table. -/
def UserService.save (db : List User) (next_id : Nat)
    (req : UserCreateRequest) : Except UserError UserCreateResponse × List User :=
  if db.any (fun u => u.email == req.email) then
    (.error (.duplicateUser "User with this email already exists"), db)
  else
    let new_user : User :=
      { id := next_id, username := req.username, email := req.email,
        password := "hashed_" ++ req.password,
        created_at := req.created_at, updated_at := req.updated_at }
    (.ok { id := new_user.id, username := new_user.username,
           email := new_user.email,
           created_at := formatTimestamp new_user.created_at,
           updated_at := formatTimestamp new_user.updated_at },
     db ++ [new_user])

/-- The `setattr` loop of `UserService.update`: exactly the explicitly set
request fields overwrite the row, the password with a `hashed_` prefix. -/
def UserService.applyUpdate (req : UserUpdateRequest) (u : User) : User :=
  { u with
    username := req.username.getD u.username,
    email := req.email.getD u.email,
    password := (req.password.map (fun p => "hashed_" ++ p)).getD u.password,
    created_at := req.created_at.getD u.created_at,
    updated_at := req.updated_at.getD u.updated_at }

/-- Replace the first element satisfying `p` (the ORM mutates the single
row object returned by `get_by_id`). -/
def updateFirst (p : α → Bool) (f : α → α) : List α → List α
  | [] => []
  | x :: xs => if p x then f x :: xs else x :: updateFirst p f xs

/-- `UserService.update`: look the row up by id, apply the set fields, and
commit; no duplicate-email check appears in the source. -/
def UserService.update (db : List User) (id : Nat) (req : UserUpdateRequest) :
    Except UserError UserUpdateResponse × List User :=
  match UserService.get_by_id db id with
  | .error e => (.error e, db)
  | .ok u =>
      let u2 := UserService.applyUpdate req u
      (.ok { id := u2.id, username := u2.username, email := u2.email,
             created_at := formatTimestamp u2.created_at,
             updated_at := formatTimestamp u2.updated_at },
       updateFirst (fun x => x.id == id) (fun x => UserService.applyUpdate req x) db)

/-- `UserService.find`: `get_by_id` mapped to a response. -/
def UserService.find (db : List User) (id : Nat) : Except UserError UserResponse :=
  match UserService.get_by_id db id with
  | .error e => .error e
  | .ok u => .ok (UserService.user_to_response u)

/-- The ORM session: the durable (committed) table and the pending working
table the session's queries and deletions see. -/
structure DBSession where
  committed : List User
  pending : List User
deriving DecidableEq

/-- `session.rollback()`: discard pending changes. -/
def DBSession.rollback (s : DBSession) : DBSession :=
  { committed := s.committed, pending := s.committed }

/-- `session.commit()`: atomically publish the pending table, or fail
(`commit_ok = false` models the database raising during commit). -/
def DBSession.commit (s : DBSession) (commit_ok : Bool) : Option DBSession :=
  if commit_ok then some { committed := s.pending, pending := s.pending }
  else none

/-- Remove the first element satisfying `p` (`session.delete(user)` on the
row object found by `get_by_id`). -/
def removeFirst (p : α → Bool) : List α → List α
  | [] => []
  | x :: xs => if p x then xs else x :: removeFirst p xs

/-- `UserService.delete`: `get_by_id` (outside the try block), then
delete + commit inside try/except with rollback and re-raise. -/
def UserService.delete (s : DBSession) (commit_ok : Bool) (id : Nat) :
    Except (UserError × DBSession) (UserResponse × DBSession) :=
  match s.pending.find? (fun u => u.id == id) with
  | none =>
      .error (.userNotFound ("User with ID " ++ toString id ++ " not found"), s)
  | some u =>
      let s1 : DBSession :=
        { s with pending := removeFirst (fun x => x.id == id) s.pending }
      match s1.commit commit_ok with
      | some s2 => .ok (UserService.user_to_response u, s2)
      | none => .error (.dbError "commit failed", s1.rollback)

/-- `UserService.bulk_delete`: inside one try/except, select the rows whose
id is in the list, raise `UserNotFoundError` if none, else delete them all
and commit; every raise inside the block rolls back and re-raises. -/
def UserService.bulk_delete (s : DBSession) (commit_ok : Bool)
    (user_ids : List Nat) : Except (UserError × DBSession) (List Nat × DBSession) :=
  let users_to_delete := s.pending.filter (fun u => user_ids.contains u.id)
  if users_to_delete.isEmpty then
    .error (.userNotFound "No users found for the given IDs", s.rollback)
  else
    let deleted_user_ids := users_to_delete.map (fun u => u.id)
    let s1 : DBSession :=
      { s with pending := s.pending.filter (fun u => ! user_ids.contains u.id) }
    match s1.commit commit_ok with
    | some s2 => .ok (deleted_user_ids, s2)
    | none => .error (.dbError "commit failed", s1.rollback)

/-- `GET /users` of `routes/users.py`, as the HTTP status it answers:
`InvalidSortFieldError` is mapped to 400, every other exception — including
the `ValueError` for a bad `sort_type` — to 500. -/
def Routes.get_users (db : List User) (page items_per_page : Nat)
    (sort_type sort_by : String) (username email : Option String)
    (start_date end_date : Option Int) : Nat :=
  match UserService.all db page items_per_page sort_type sort_by
      email username start_date end_date with
  | .ok _ => 200
  | .error (.invalidSortField _) => 400
  | .error _ => 500

/-- `GET /users/{id}` as the HTTP status it answers. -/
def Routes.get_user (db : List User) (id : Nat) : Nat :=
  match UserService.find db id with
  | .ok _ => 200
  | .error (.userNotFound _) => 404
  | .error _ => 500

/-- `POST /users/{id}` as the HTTP status it answers. -/
def Routes.create_user (db : List User) (next_id : Nat)
    (req : UserCreateRequest) : Nat :=
  match (UserService.save db next_id req).1 with
  | .ok _ => 201
  | .error (.duplicateUser _) => 409
  | .error _ => 500

/-- `PUT /users/{id}` as the HTTP status it answers. -/
def Routes.update_user (db : List User) (id : Nat)
    (req : UserUpdateRequest) : Nat :=
  match (UserService.update db id req).1 with
  | .ok _ => 200
  | .error (.userNotFound _) => 404
  | .error _ => 500

/-- `DELETE /users/{id}` as the HTTP status it answers. -/
def Routes.delete_user (s : DBSession) (commit_ok : Bool) (id : Nat) : Nat :=
  match UserService.delete s commit_ok id with
  | .ok _ => 200
  | .error (.userNotFound _, _) => 404
  | .error _ => 500

/-- `DELETE /users/{ids}/bulk` (after id parsing) as the HTTP status it
answers. -/
def Routes.batch_delete_users (s : DBSession) (commit_ok : Bool)
    (ids : List Nat) : Nat :=
  match UserService.bulk_delete s commit_ok ids with
  | .ok _ => 200
  | .error (.userNotFound _, _) => 404
  | .error _ => 500

/-! ### Sample data for witnesses and counterexamples -/

/-- A sample stored user. -/
def sampleUser1 : User :=
  { id := 1, username := "alice", email := "a@b.c", password := "hashed_p1",
    created_at := 10, updated_at := 10 }

/-- A second sample stored user. -/
def sampleUser2 : User :=
  { id := 2, username := "bob", email := "x@y.z", password := "hashed_p2",
    created_at := 20, updated_at := 20 }

/-! ### Helper lemmas -/

theorem length_insertSorted (le : α → α → Bool) (x : α) (l : List α) :
    (insertSorted le x l).length = l.length + 1 := by
  induction l with
  | nil => rfl
  | cons y ys ih =>
      simp only [insertSorted]
      split
      · simp
      · simp [ih]

theorem length_insertionSort (le : α → α → Bool) (l : List α) :
    (insertionSort le l).length = l.length := by
  induction l with
  | nil => rfl
  | cons x xs ih => simp [insertionSort, length_insertSorted, ih]

theorem length_sortUsers (st sb : String) (l : List User) :
    (sortUsers st sb l).length = l.length := by
  unfold sortUsers
  split <;> apply length_insertionSort

theorem mem_insertSorted (le : α → α → Bool) (x y : α) (l : List α) :
    y ∈ insertSorted le x l ↔ y ∈ x :: l := by
  induction l with
  | nil => simp [insertSorted]
  | cons z zs ih =>
      simp only [insertSorted]
      split
      · simp
      · simp only [List.mem_cons, ih, List.mem_cons]
        tauto

theorem mem_insertionSort (le : α → α → Bool) (y : α) (l : List α) :
    y ∈ insertionSort le l ↔ y ∈ l := by
  induction l with
  | nil => simp [insertionSort]
  | cons x xs ih => simp [insertionSort, mem_insertSorted, ih]

theorem mem_sortUsers (st sb : String) (y : User) (l : List User) :
    y ∈ sortUsers st sb l ↔ y ∈ l := by
  unfold sortUsers
  split <;> apply mem_insertionSort

theorem mem_optFilter {o : Option β} {f : β → α → Bool} {l : List α} {r : α}
    (h : r ∈ optFilter o f l) :
    r ∈ l ∧ ∀ b, o = some b → f b r = true := by
  rcases o with _ | b
  · exact ⟨h, fun b h1 => by cases h1⟩
  · have h2 := List.mem_filter.mp h
    exact ⟨h2.1, fun b2 h1 => by injection h1 with h1; subst h1; exact h2.2⟩

theorem mem_usernameFilter {username : Option String} {db : List User} {r : User}
    (h : r ∈ usernameFilter username db) :
    r ∈ db ∧ ∀ un, username = some un → un ≠ "" → r.username = un := by
  rcases username with _ | un
  · exact ⟨h, fun un h1 => by cases h1⟩
  · simp only [usernameFilter] at h
    by_cases he : un = ""
    · rw [if_pos he] at h
      exact ⟨h, fun un2 h1 h2 => by injection h1 with h1; subst h1; exact absurd he h2⟩
    · rw [if_neg he] at h
      have h2 := List.mem_filter.mp h
      exact ⟨h2.1, fun un2 h1 _ => by
        injection h1 with h1; subst h1; exact beq_iff_eq.mp h2.2⟩

theorem mem_filtered {db : List User} {username : Option String}
    {sd ed : Option Int} {r : User}
    (h : r ∈ UserService.filtered db username sd ed) :
    r ∈ db ∧ (∀ un, username = some un → un ≠ "" → r.username = un) ∧
      (∀ s, sd = some s → s ≤ r.created_at) ∧
      (∀ e, ed = some e → r.created_at ≤ e) := by
  unfold UserService.filtered at h
  obtain ⟨h1, hed⟩ := mem_optFilter h
  obtain ⟨h2, hsd⟩ := mem_optFilter h1
  obtain ⟨h3, hun⟩ := mem_usernameFilter h2
  refine ⟨h3, hun, ?_, ?_⟩
  · exact fun s hs => by have := hsd s hs; simpa using this
  · exact fun e he => by have := hed e he; simpa using this

theorem allQuery_ok_inv {db : List User} {page ipp : Nat} {st sb : String}
    {email username : Option String} {sd ed : Option Int}
    {users : List User} {total : Nat} {lp : Int} {fi li : Nat}
    (h : UserService.allQuery db page ipp st sb email username sd ed =
      .ok (users, total, lp, fi, li)) :
    users = ((sortUsers st sb (UserService.filtered db username sd ed)).drop
        ((page - 1) * ipp)).take ipp ∧
    total = (UserService.filtered db username sd ed).length ∧
    lp = ((total : Int) - 1).fdiv (ipp : Int) + 1 ∧
    fi = (page - 1) * ipp + 1 ∧
    li = min ((page - 1) * ipp + ipp) total := by
  unfold UserService.allQuery at h
  split at h
  · exact absurd h (by simp)
  · split at h
    · exact absurd h (by simp)
    · simp only [Except.ok.injEq, Prod.mk.injEq] at h
      obtain ⟨h1, h2, h3, h4, h5⟩ := h
      subst h1
      subst h2
      subst h3
      subst h4
      subst h5
      exact ⟨rfl, (length_sortUsers st sb _), rfl, rfl, rfl⟩

theorem fdiv_pagination (total ipp : Nat) (h : 1 ≤ ipp) :
    ((total : Int) - 1).fdiv (ipp : Int) + 1 = (((total + ipp - 1) / ipp : Nat) : Int) := by
  rcases Nat.eq_zero_or_pos total with h0 | h0
  · subst h0
    rw [Int.fdiv_eq_ediv _ (by exact_mod_cast Nat.zero_le ipp)]
    have h1 : ((0 + ipp - 1) / ipp : Nat) = 0 := Nat.div_eq_of_lt (by omega)
    rw [h1]
    have hb : (1:Int) ≤ (ipp:Int) := by exact_mod_cast h
    have h3 : ((ipp:Int) - 1) / (ipp:Int) = 0 :=
      Int.ediv_eq_zero_of_lt (by omega) (by omega)
    have h4 := Int.add_mul_ediv_right ((ipp:Int) - 1) (-1) (c := (ipp:Int)) (by omega)
    have h2 : ((ipp:Int) - 1) + (-1) * (ipp:Int) = ((0:Nat):Int) - 1 := by
      push_cast
      ring
    rw [h2, h3] at h4
    rw [h4]
    norm_num
  · obtain ⟨k, rfl⟩ : ∃ k, total = k + 1 := ⟨total - 1, by omega⟩
    have e1 : ((k+1 : Nat) : Int) - 1 = ((k : Nat) : Int) := by push_cast; ring
    rw [e1, Int.fdiv_eq_ediv _ (by exact_mod_cast Nat.zero_le ipp)]
    rw [← Int.ofNat_ediv]
    have e2 : k + 1 + ipp - 1 = k + ipp := by omega
    rw [e2, Nat.add_div_right _ (by omega)]
    push_cast
    ring

theorem updateFirst_decomp {p : α → Bool} {f : α → α} {l : List α} {u : α}
    (h : l.find? p = some u) :
    ∃ pre post, l = pre ++ u :: post ∧ (∀ x ∈ pre, p x = false) ∧
      p u = true ∧ updateFirst p f l = pre ++ f u :: post := by
  induction l with
  | nil => simp [List.find?] at h
  | cons y ys ih =>
      by_cases hp : p y
      · rw [List.find?_cons_of_pos _ hp] at h
        injection h with h
        subst h
        refine ⟨[], ys, rfl, by simp, hp, ?_⟩
        simp [updateFirst, hp]
      · rw [List.find?_cons_of_neg _ hp] at h
        obtain ⟨pre, post, he, hpre, hu, hup⟩ := ih h
        refine ⟨y :: pre, post, by rw [he, List.cons_append], ?_, hu, ?_⟩
        · intro x hx
          rcases List.mem_cons.mp hx with h1 | h1
          · subst h1; exact Bool.of_not_eq_true hp
          · exact hpre x h1
        · simp only [updateFirst, if_neg hp, hup, List.cons_append]

theorem find?_eq_none_of_all {l : List α} {p : α → Bool}
    (h : ∀ x ∈ l, p x = false) : l.find? p = none := by
  rw [List.find?_eq_none]
  intro x hx
  rw [h x hx]
  simp

theorem allQuery_invalid_sort_type (db : List User) (page ipp : Nat)
    (st sb : String) (email username : Option String) (sd ed : Option Int)
    (h1 : st ≠ "asc") (h2 : st ≠ "desc") :
    UserService.allQuery db page ipp st sb email username sd ed =
      .error (.valueError "Invalid sort type; must be 'asc' or 'desc'") := by
  unfold UserService.allQuery
  rw [if_pos ⟨h1, h2⟩]

theorem allQuery_invalid_sort_field (db : List User) (page ipp : Nat)
    (st sb : String) (email username : Option String) (sd ed : Option Int)
    (hst : st = "asc" ∨ st = "desc") (hattr : userHasAttr sb = false) :
    UserService.allQuery db page ipp st sb email username sd ed =
      .error (.invalidSortField "Invalid sort field") := by
  rcases hst with rfl | rfl <;> simp [UserService.allQuery, hattr]

theorem allQuery_ok_of_valid (db : List User) (page ipp : Nat)
    (st sb : String) (email username : Option String) (sd ed : Option Int)
    (hst : st = "asc" ∨ st = "desc") (hattr : userHasAttr sb = true) :
    ∃ r, UserService.allQuery db page ipp st sb email username sd ed =
      .ok r := by
  rcases hst with rfl | rfl <;> simp [UserService.allQuery, hattr]

theorem save_duplicate (db : List User) (next_id : Nat)
    (req : UserCreateRequest) (h : ∃ u ∈ db, u.email = req.email) :
    UserService.save db next_id req =
      (.error (.duplicateUser "User with this email already exists"), db) := by
  obtain ⟨u, hu, he⟩ := h
  have hc : db.any (fun u => u.email == req.email) = true :=
    List.any_eq_true.mpr ⟨u, hu, by simp [he]⟩
  unfold UserService.save
  rw [if_pos hc]

theorem get_by_id_none {db : List User} {id : Nat}
    (h : ∀ u ∈ db, u.id ≠ id) :
    UserService.get_by_id db id =
      .error (.userNotFound ("User with ID " ++ toString id ++ " not found")) := by
  have hf : db.find? (fun u => u.id == id) = none :=
    find?_eq_none_of_all (fun x hx => beq_eq_false_iff_ne.mpr (h x hx))
  simp [UserService.get_by_id, hf]

/-! ### C1 — duplicate-email checking on create and update -/

/-- C1, counterexample: `UserService.update` performs no duplicate-email
check. Updating user 2's email to the email of stored user 1 succeeds and
stores the duplicate instead of raising `DuplicateUserError`, refuting the
claim that create and update both check for duplicates. -/
theorem update_skips_duplicate_email_check :
    sampleUser1.email = "a@b.c" ∧
    (UserService.update [sampleUser1, sampleUser2] 2
      { email := some "a@b.c" }).1.isOk = true ∧
    (UserService.update [sampleUser1, sampleUser2] 2
      { email := some "a@b.c" }).2 =
      [sampleUser1, { sampleUser2 with email := "a@b.c" }] :=
  ⟨rfl, rfl, rfl⟩

/-- C1, amended: user creation performs the duplicate-email check — `save`
raises `DuplicateUserError` and leaves the user table unchanged whenever
the request email equals a stored user's email; `update` performs no such
check. -/
theorem save_duplicate_email_rejected (db : List User) (next_id : Nat)
    (req : UserCreateRequest) (h : ∃ u ∈ db, u.email = req.email) :
    UserService.save db next_id req =
      (.error (.duplicateUser "User with this email already exists"), db) :=
  save_duplicate db next_id req h

/-- Witness for C1's amended theorem at a concrete table and request. -/
theorem save_duplicate_email_rejected_witness :
    (∃ u ∈ [sampleUser1], u.email = "a@b.c") ∧
    UserService.save [sampleUser1] 2
      { username := "bob", email := "a@b.c", password := "pw",
        created_at := 0, updated_at := 0 } =
      (.error (.duplicateUser "User with this email already exists"),
        [sampleUser1]) :=
  ⟨⟨sampleUser1, by simp, rfl⟩,
    save_duplicate_email_rejected _ _ _ ⟨sampleUser1, by simp, rfl⟩⟩

/-! ### C2 — the filters of `UserService.all` -/

/-- C2, counterexample: the `email` filter is never applied. With an email
filter matching no stored user, the full page is still returned, refuting
the claim that every supplied filter is applied. -/
theorem email_filter_not_applied :
    UserService.allQuery [sampleUser1] 1 10 "asc" "id" (some "nomatch")
      none none none = .ok ([sampleUser1], 1, 1, 1, 1) ∧
    sampleUser1.email ≠ "nomatch" :=
  ⟨rfl, by decide⟩

/-- C2, amended: every user in the returned page matches a non-empty
`username` filter and lies in the inclusive `[start_date, end_date]` range,
but the `email` argument is ignored — the result does not depend on it. -/
theorem all_filters_applied (db : List User) (page ipp : Nat) (st sb : String)
    (email username : Option String) (sd ed : Option Int)
    (users : List User) (total : Nat) (lp : Int) (fi li : Nat)
    (h : UserService.allQuery db page ipp st sb email username sd ed =
      .ok (users, total, lp, fi, li)) :
    (∀ r ∈ users,
      (∀ un, username = some un → un ≠ "" → r.username = un) ∧
      (∀ s, sd = some s → s ≤ r.created_at) ∧
      (∀ e, ed = some e → r.created_at ≤ e)) ∧
    (∀ email2 : Option String,
      UserService.allQuery db page ipp st sb email2 username sd ed =
        UserService.allQuery db page ipp st sb email username sd ed) := by
  constructor
  · intro r hr
    obtain ⟨h1, -, -, -, -⟩ := allQuery_ok_inv h
    subst h1
    have h2 : r ∈ sortUsers st sb (UserService.filtered db username sd ed) :=
      List.drop_subset _ _ (List.take_subset _ _ hr)
    have h3 := (mem_sortUsers st sb r _).mp h2
    obtain ⟨-, ha, hb2, hc2⟩ := mem_filtered h3
    exact ⟨ha, hb2, hc2⟩
  · intro email2
    rfl

/-- Witness for C2's amended theorem at a concrete table, with all three
effective filters supplied. -/
theorem all_filters_applied_witness :
    UserService.allQuery [sampleUser1, sampleUser2] 1 10 "asc" "id" none
      (some "alice") (some 5) (some 15) = .ok ([sampleUser1], 1, 1, 1, 1) ∧
    (∀ r ∈ [sampleUser1],
      (∀ un, (some "alice" : Option String) = some un → un ≠ "" →
        r.username = un) ∧
      (∀ s, (some (5:Int) : Option Int) = some s → s ≤ r.created_at) ∧
      (∀ e, (some (15:Int) : Option Int) = some e → r.created_at ≤ e)) := by
  refine ⟨by rfl, ?_⟩
  exact (all_filters_applied [sampleUser1, sampleUser2] 1 10 "asc" "id" none
    (some "alice") (some 5) (some 15) [sampleUser1] 1 1 1 1 (by rfl)).1

/-! ### C3 — the pagination math of `UserService.all` -/

/-- C3: for `page ≥ 1` and `items_per_page ≥ 1`, a successful `all` returns
`last_page` equal to the ceiling of `total / items_per_page`, `first_item`
equal to `(page - 1) * items_per_page + 1`, `last_item` equal to
`min (page * items_per_page) total`, and a page of at most `items_per_page`
users, namely the slice of the sorted filtered sequence starting at offset
`(page - 1) * items_per_page`, with `total` the filtered match count. -/
theorem all_pagination_math (db : List User) (page ipp : Nat) (st sb : String)
    (email username : Option String) (sd ed : Option Int)
    (users : List User) (total : Nat) (lp : Int) (fi li : Nat)
    (hp : 1 ≤ page) (hi : 1 ≤ ipp)
    (h : UserService.allQuery db page ipp st sb email username sd ed =
      .ok (users, total, lp, fi, li)) :
    lp = (((total + ipp - 1) / ipp : Nat) : Int) ∧
    fi = (page - 1) * ipp + 1 ∧
    li = min (page * ipp) total ∧
    users.length ≤ ipp ∧
    users = ((sortUsers st sb (UserService.filtered db username sd ed)).drop
        ((page - 1) * ipp)).take ipp ∧
    total = (UserService.filtered db username sd ed).length := by
  obtain ⟨h1, h2, h3, h4, h5⟩ := allQuery_ok_inv h
  refine ⟨?_, h4, ?_, ?_, h1, h2⟩
  · rw [h3]
    exact fdiv_pagination total ipp hi
  · rw [h5]
    have hmul : (page - 1) * ipp + ipp = page * ipp := by
      have hpp : page - 1 + 1 = page := by omega
      calc (page - 1) * ipp + ipp = (page - 1 + 1) * ipp := by ring
        _ = page * ipp := by rw [hpp]
    rw [hmul]
  · rw [h1]
    exact List.length_take_le _ _

/-- Witness for C3 at a concrete table: page 2 of size 1 out of 2 users. -/
theorem all_pagination_math_witness :
    (1 ≤ 2 ∧ 1 ≤ 1 ∧
      UserService.allQuery [sampleUser1, sampleUser2] 2 1 "desc" "created_at"
        none none none none = .ok ([sampleUser1], 2, 2, 2, 2)) ∧
    ((2:Int) = (((2 + 1 - 1) / 1 : Nat) : Int) ∧ (2:Nat) = (2 - 1) * 1 + 1 ∧
      (2:Nat) = min (2 * 1) 2 ∧ [sampleUser1].length ≤ 1) := by
  refine ⟨⟨by decide, by decide, by rfl⟩, ?_⟩
  have h := all_pagination_math [sampleUser1, sampleUser2] 2 1 "desc"
    "created_at" none none none none [sampleUser1] 2 2 2 2
    (by decide) (by decide) (by rfl)
  exact ⟨h.1, h.2.1, h.2.2.1, h.2.2.2.1⟩

/-! ### C4 — sort validation of `UserService.all` -/

/-- C4: `all` raises `ValueError` iff `sort_type` is neither "asc" nor
"desc" — and does so whatever `sort_by` is, since the `sort_type` check
runs before any filtering or sort-field check; with a valid `sort_type` it
raises `InvalidSortFieldError` iff `sort_by` is not an attribute of the
`User` model; with both valid it returns a result. -/
theorem all_sort_validation (db : List User) (page ipp : Nat) (st sb : String)
    (email username : Option String) (sd ed : Option Int) :
    (st ≠ "asc" ∧ st ≠ "desc" →
      UserService.allQuery db page ipp st sb email username sd ed =
        .error (.valueError "Invalid sort type; must be 'asc' or 'desc'")) ∧
    ((st = "asc" ∨ st = "desc") → userHasAttr sb = false →
      UserService.allQuery db page ipp st sb email username sd ed =
        .error (.invalidSortField "Invalid sort field")) ∧
    ((st = "asc" ∨ st = "desc") → userHasAttr sb = true →
      ∃ r, UserService.allQuery db page ipp st sb email username sd ed =
        .ok r) := by
  refine ⟨?_, ?_, ?_⟩
  · intro hst
    exact allQuery_invalid_sort_type db page ipp st sb email username sd ed
      hst.1 hst.2
  · intro hst hattr
    exact allQuery_invalid_sort_field db page ipp st sb email username sd ed
      hst hattr
  · intro hst hattr
    exact allQuery_ok_of_valid db page ipp st sb email username sd ed hst hattr

/-- Witness for C4 at concrete sort parameters: invalid `sort_type`,
invalid `sort_by`, and a fully valid pair. -/
theorem all_sort_validation_witness :
    UserService.allQuery [sampleUser1] 1 10 "up" "id" none none none none =
      .error (.valueError "Invalid sort type; must be 'asc' or 'desc'") ∧
    UserService.allQuery [sampleUser1] 1 10 "asc" "nope" none none none none =
      .error (.invalidSortField "Invalid sort field") ∧
    (∃ r, UserService.allQuery [sampleUser1] 1 10 "asc" "id" none none
      none none = .ok r) :=
  ⟨(all_sort_validation [sampleUser1] 1 10 "up" "id" none none none none).1
      (by decide),
   (all_sort_validation [sampleUser1] 1 10 "asc" "nope" none none none
      none).2.1 (Or.inl rfl) (by decide),
   (all_sort_validation [sampleUser1] 1 10 "asc" "id" none none none
      none).2.2 (Or.inl rfl) (by decide)⟩

/-! ### C5 — try/rollback atomicity of delete and bulk_delete -/

/-- C5: if an exception is raised inside the try block of `delete` or
`bulk_delete` (modelled by a failing commit, or the not-found raise inside
`bulk_delete`'s try block), the session is rolled back and the error
re-raised, so the committed table is unchanged; `bulk_delete` commits all
of the found deletions or none of them, and a successful `delete` commits
exactly the removal of the found user. -/
theorem delete_rollback_atomicity (s : DBSession) (commit_ok : Bool)
    (id : Nat) (ids : List Nat) :
    (∀ e s2, UserService.delete s commit_ok id = .error (e, s2) →
      s2.committed = s.committed) ∧
    (∀ r s2, UserService.delete s commit_ok id = .ok (r, s2) →
      s2.committed = removeFirst (fun x => x.id == id) s.pending) ∧
    (∀ e s2, UserService.bulk_delete s commit_ok ids = .error (e, s2) →
      s2.committed = s.committed) ∧
    (∀ ds s2, UserService.bulk_delete s commit_ok ids = .ok (ds, s2) →
      s2.committed = s.pending.filter (fun u => ! ids.contains u.id)) := by
  refine ⟨?_, ?_, ?_, ?_⟩
  · intro e s2 h
    unfold UserService.delete at h
    cases hf : s.pending.find? (fun u => u.id == id) with
    | none =>
        rw [hf] at h
        simp only [Except.error.injEq, Prod.mk.injEq] at h
        obtain ⟨-, h2⟩ := h
        subst h2
        rfl
    | some u =>
        rw [hf] at h
        cases commit_ok with
        | true => simp [DBSession.commit] at h
        | false =>
            simp [DBSession.commit, DBSession.rollback] at h
            obtain ⟨-, h2⟩ := h
            subst h2
            rfl
  · intro r s2 h
    unfold UserService.delete at h
    cases hf : s.pending.find? (fun u => u.id == id) with
    | none => rw [hf] at h; simp at h
    | some u =>
        rw [hf] at h
        cases commit_ok with
        | false => simp [DBSession.commit] at h
        | true =>
            simp [DBSession.commit] at h
            obtain ⟨-, h2⟩ := h
            subst h2
            rfl
  · intro e s2 h
    simp only [UserService.bulk_delete] at h
    split at h
    · simp only [DBSession.rollback, Except.error.injEq, Prod.mk.injEq] at h
      obtain ⟨-, h2⟩ := h
      subst h2
      rfl
    · cases commit_ok with
      | true => simp [DBSession.commit] at h
      | false =>
          simp [DBSession.commit, DBSession.rollback] at h
          obtain ⟨-, h2⟩ := h
          subst h2
          rfl
  · intro ds s2 h
    simp only [UserService.bulk_delete] at h
    split at h
    · simp at h
    · cases commit_ok with
      | false => simp [DBSession.commit] at h
      | true =>
          simp [DBSession.commit] at h
          obtain ⟨-, h2⟩ := h
          subst h2
          simp

/-- Witness for C5: a failing commit during `delete` rolls the session
back to the committed table. -/
theorem delete_rollback_atomicity_witness :
    UserService.delete
        { committed := [sampleUser1], pending := [sampleUser1, sampleUser2] }
        false 2 =
      .error (.dbError "commit failed",
        { committed := [sampleUser1], pending := [sampleUser1] }) ∧
    ({ committed := [sampleUser1], pending := [sampleUser1] } : DBSession).committed =
      ({ committed := [sampleUser1],
         pending := [sampleUser1, sampleUser2] } : DBSession).committed := by
  refine ⟨by rfl, ?_⟩
  exact (delete_rollback_atomicity
    { committed := [sampleUser1], pending := [sampleUser1, sampleUser2] }
    false 2 []).1 _ _ (by rfl)

/-! ### C6 — HTTP status mapping of the route handlers -/

/-- C6, counterexample: an invalid `sort_type` does not yield status 400 —
the `ValueError` raised by the service falls into the generic exception
handler of `GET /users`, which answers 500. -/
theorem invalid_sort_type_gives_500 :
    Routes.get_users [sampleUser1] 1 10 "up" "id" none none none none = 500 ∧
    Routes.get_users [sampleUser1] 1 10 "up" "id" none none none none ≠ 400 :=
  ⟨rfl, by decide⟩

/-- C6, amended: the route handlers translate `UserNotFoundError` to 404,
`DuplicateUserError` to 409 and an invalid `sort_by` field to 400, but a
`sort_type` that is neither "asc" nor "desc" raises `ValueError`, which
only the generic handler catches: the response is 500, not 400. -/
theorem route_error_status_mapping :
    (∀ db (page ipp : Nat) st sb username email sd ed,
      (st = "asc" ∨ st = "desc") → userHasAttr sb = false →
      Routes.get_users db page ipp st sb username email sd ed = 400) ∧
    (∀ db (page ipp : Nat) st sb username email sd ed,
      st ≠ "asc" → st ≠ "desc" →
      Routes.get_users db page ipp st sb username email sd ed = 500) ∧
    (∀ db id, (∀ u ∈ db, u.id ≠ id) → Routes.get_user db id = 404) ∧
    (∀ db next_id req, (∃ u ∈ db, u.email = req.email) →
      Routes.create_user db next_id req = 409) ∧
    (∀ db id req, (∀ u ∈ db, u.id ≠ id) →
      Routes.update_user db id req = 404) ∧
    (∀ s commit_ok id, (∀ u ∈ s.pending, u.id ≠ id) →
      Routes.delete_user s commit_ok id = 404) ∧
    (∀ s commit_ok ids, (∀ u ∈ s.pending, ids.contains u.id = false) →
      Routes.batch_delete_users s commit_ok ids = 404) := by
  refine ⟨?_, ?_, ?_, ?_, ?_, ?_, ?_⟩
  · intro db page ipp st sb username email sd ed hst hattr
    have h := allQuery_invalid_sort_field db page ipp st sb email username
      sd ed hst hattr
    simp [Routes.get_users, UserService.all, h]
  · intro db page ipp st sb username email sd ed h1 h2
    have h := allQuery_invalid_sort_type db page ipp st sb email username
      sd ed h1 h2
    simp [Routes.get_users, UserService.all, h]
  · intro db id hid
    have h := get_by_id_none hid
    simp [Routes.get_user, UserService.find, h]
  · intro db next_id req hdup
    have h := save_duplicate db next_id req hdup
    simp [Routes.create_user, h]
  · intro db id req hid
    have h := get_by_id_none hid
    simp [Routes.update_user, UserService.update, h]
  · intro s commit_ok id hid
    have hf : s.pending.find? (fun u => u.id == id) = none :=
      find?_eq_none_of_all (fun x hx => beq_eq_false_iff_ne.mpr (hid x hx))
    simp [Routes.delete_user, UserService.delete, hf]
  · intro s commit_ok ids hids
    have hc : ∀ a ∈ s.pending, a.id ∉ ids := by
      intro a ha
      have h2 := hids a ha
      simpa using h2
    simp [Routes.batch_delete_users, UserService.bulk_delete]
    rw [if_pos hc]

/-- Witness for C6's amended theorem: each error mapping exercised at a
concrete request. -/
theorem route_error_status_mapping_witness :
    Routes.get_users [sampleUser1] 1 10 "asc" "nope" none none none none = 400 ∧
    Routes.get_users [sampleUser1] 1 10 "up" "id" none none none none = 500 ∧
    Routes.get_user [sampleUser1] 7 = 404 ∧
    Routes.create_user [sampleUser1] 2
      { username := "bob", email := "a@b.c", password := "pw",
        created_at := 0, updated_at := 0 } = 409 ∧
    Routes.update_user [sampleUser1] 7 {} = 404 ∧
    Routes.delete_user { committed := [sampleUser1], pending := [sampleUser1] }
      true 7 = 404 ∧
    Routes.batch_delete_users
      { committed := [sampleUser1], pending := [sampleUser1] } true [7] = 404 := by
  have h := route_error_status_mapping
  exact ⟨h.1 _ _ _ _ _ _ _ _ _ (Or.inl rfl) (by decide),
         h.2.1 _ _ _ _ _ _ _ _ _ (by decide) (by decide),
         h.2.2.1 _ _ (by decide),
         h.2.2.2.1 _ _ _ ⟨sampleUser1, by simp, rfl⟩,
         h.2.2.2.2.1 _ _ _ (by decide),
         h.2.2.2.2.2.1 _ _ _ (by decide),
         h.2.2.2.2.2.2 _ _ _ (by decide)⟩

/-! ### C7 — username bounds of the request models -/

/-- C7: `UserCreateRequest` accepts a username iff it is not blank
(non-empty after stripping) and its length lies in [3, 50];
`UserUpdateRequest` accepts a supplied username iff it is not blank and its
length lies in [3, 20], and always accepts an unset username. -/
theorem check_name_bounds :
    (∀ v : String, (UserCreateRequest.check_name v).isOk = true ↔
      (pyStrip v ≠ "" ∧ 3 ≤ v.length ∧ v.length ≤ 50)) ∧
    (∀ v : String, (UserUpdateRequest.check_name (some v)).isOk = true ↔
      (pyStrip v ≠ "" ∧ 3 ≤ v.length ∧ v.length ≤ 20)) ∧
    (UserUpdateRequest.check_name none).isOk = true := by
  refine ⟨?_, ?_, rfl⟩
  · intro v
    by_cases h1 : pyStrip v = "" <;>
      by_cases h2 : v.length < 3 <;>
        by_cases h3 : v.length > 50 <;>
          (simp [UserCreateRequest.check_name, h1, h2, h3, Except.isOk,
             Except.toBool]
           try omega)
  · intro v
    by_cases h1 : pyStrip v = "" <;>
      by_cases h2 : v.length < 3 <;>
        by_cases h3 : v.length > 20 <;>
          (simp [UserUpdateRequest.check_name, h1, h2, h3, Except.isOk,
             Except.toBool]
           try omega)

/-- Witness for C7: an accepted create username and an accepted update
username. -/
theorem check_name_bounds_witness :
    (UserCreateRequest.check_name "alice").isOk = true ∧
    (UserUpdateRequest.check_name (some "bob")).isOk = true :=
  ⟨(check_name_bounds.1 "alice").mpr ⟨by decide, by decide, by decide⟩,
   (check_name_bounds.2.1 "bob").mpr ⟨by decide, by decide, by decide⟩⟩

/-! ### C8 — frame property of update -/

/-- C8: a successful update rewrites exactly the first stored user with the
requested id — every explicitly set field is overwritten (the password with
the `hashed_` prefix), every unset field keeps its previous value, and
every other user (the whole prefix and suffix around the matched row) is
unchanged. -/
theorem update_frame_property :
    (∀ u (req : UserUpdateRequest), req.username = none →
      (UserService.applyUpdate req u).username = u.username) ∧
    (∀ u (req : UserUpdateRequest), req.email = none →
      (UserService.applyUpdate req u).email = u.email) ∧
    (∀ u (req : UserUpdateRequest), req.password = none →
      (UserService.applyUpdate req u).password = u.password) ∧
    (∀ u (req : UserUpdateRequest), req.created_at = none →
      (UserService.applyUpdate req u).created_at = u.created_at) ∧
    (∀ u (req : UserUpdateRequest), req.updated_at = none →
      (UserService.applyUpdate req u).updated_at = u.updated_at) ∧
    (∀ u (req : UserUpdateRequest) v, req.username = some v →
      (UserService.applyUpdate req u).username = v) ∧
    (∀ u (req : UserUpdateRequest) v, req.email = some v →
      (UserService.applyUpdate req u).email = v) ∧
    (∀ u (req : UserUpdateRequest) v, req.password = some v →
      (UserService.applyUpdate req u).password = "hashed_" ++ v) ∧
    (∀ db id req resp db2, UserService.update db id req = (.ok resp, db2) →
      ∃ pre u post, db = pre ++ u :: post ∧ (u.id == id) = true ∧
        (∀ x ∈ pre, (x.id == id) = false) ∧
        db2 = pre ++ UserService.applyUpdate req u :: post) := by
  refine ⟨?_, ?_, ?_, ?_, ?_, ?_, ?_, ?_, ?_⟩
  · intro u req h
    simp [UserService.applyUpdate, h]
  · intro u req h
    simp [UserService.applyUpdate, h]
  · intro u req h
    simp [UserService.applyUpdate, h]
  · intro u req h
    simp [UserService.applyUpdate, h]
  · intro u req h
    simp [UserService.applyUpdate, h]
  · intro u req v h
    simp [UserService.applyUpdate, h]
  · intro u req v h
    simp [UserService.applyUpdate, h]
  · intro u req v h
    simp [UserService.applyUpdate, h]
  · intro db id req resp db2 h
    unfold UserService.update UserService.get_by_id at h
    cases hf : db.find? (fun u => u.id == id) with
    | none => rw [hf] at h; simp at h
    | some u =>
        rw [hf] at h
        simp only [Prod.mk.injEq] at h
        obtain ⟨-, h2⟩ := h
        obtain ⟨pre, post, he, hpre, hu, hup⟩ := updateFirst_decomp hf
        exact ⟨pre, u, post, he, hu, hpre, by rw [← h2, hup]⟩

/-- Witness for C8: an unset field is preserved, and a concrete successful
update decomposes the table into an unchanged prefix, the rewritten row,
and an unchanged suffix. -/
theorem update_frame_property_witness :
    (UserService.applyUpdate { email := some "e@f.g" } sampleUser1).username =
      sampleUser1.username ∧
    (∃ pre u post, [sampleUser1, sampleUser2] = pre ++ u :: post ∧
      (u.id == 2) = true ∧ (∀ x ∈ pre, (x.id == 2) = false) ∧
      (UserService.update [sampleUser1, sampleUser2] 2
          { username := some "carol" }).2 =
        pre ++ UserService.applyUpdate { username := some "carol" } u :: post) := by
  constructor
  · exact update_frame_property.1 sampleUser1 { email := some "e@f.g" } rfl
  · exact update_frame_property.2.2.2.2.2.2.2.2 [sampleUser1, sampleUser2] 2
      { username := some "carol" }
      { id := 2, username := "carol", email := "x@y.z",
        created_at := formatTimestamp 20, updated_at := formatTimestamp 20 }
      (UserService.update [sampleUser1, sampleUser2] 2
        { username := some "carol" }).2
      (by rfl)

/-! ### C9 — password hashing and response confidentiality -/

/-- C9: every user stored by `save` (beyond those already present) has
password `"hashed_" ++ request password`; `update` writes set passwords
with the same prefix; and no response carries the password — the user
response is invariant under the stored password, and the outcomes of
`save` and `update` are invariant under the request password. -/
theorem password_hashing_invariant :
    (∀ db next_id req resp db2,
      UserService.save db next_id req = (.ok resp, db2) →
      ∀ u ∈ db2, u ∈ db ∨ u.password = "hashed_" ++ req.password) ∧
    (∀ u (req : UserUpdateRequest) p, req.password = some p →
      (UserService.applyUpdate req u).password = "hashed_" ++ p) ∧
    (∀ u p, UserService.user_to_response { u with password := p } =
      UserService.user_to_response u) ∧
    (∀ db next_id (req : UserCreateRequest) (p2 : String),
      (UserService.save db next_id { req with password := p2 }).1 =
        (UserService.save db next_id req).1) ∧
    (∀ db id (req : UserUpdateRequest) (p2 : Option String),
      (UserService.update db id { req with password := p2 }).1 =
        (UserService.update db id req).1) := by
  refine ⟨?_, ?_, ?_, ?_, ?_⟩
  · intro db next_id req resp db2 h
    unfold UserService.save at h
    split at h
    · simp at h
    · simp only [Prod.mk.injEq] at h
      obtain ⟨-, h2⟩ := h
      intro u hu
      rw [← h2] at hu
      rcases List.mem_append.mp hu with h3 | h3
      · exact Or.inl h3
      · right
        rw [List.mem_singleton.mp h3]
  · intro u req p h
    simp [UserService.applyUpdate, h]
  · intro u p
    simp [UserService.user_to_response]
  · intro db next_id req p2
    by_cases hc : db.any (fun u => u.email == req.email) = true
    · simp [UserService.save, hc]
    · simp [UserService.save, hc]
  · intro db id req p2
    unfold UserService.update UserService.get_by_id
    cases hf : db.find? (fun u => u.id == id) with
    | none => rfl
    | some u => simp [UserService.applyUpdate]

/-- Witness for C9: the password stored by a concrete `save` is hashed,
and a set update password is hashed by `applyUpdate`. -/
theorem password_hashing_invariant_witness :
    (∀ u ∈ (UserService.save [] 1
        { username := "alice", email := "a@b.c", password := "pw",
          created_at := 0, updated_at := 0 }).2,
      u ∈ ([] : List User) ∨ u.password = "hashed_" ++ "pw") ∧
    (UserService.applyUpdate { password := some "pw" } sampleUser1).password =
      "hashed_" ++ "pw" := by
  constructor
  · exact password_hashing_invariant.1 [] 1
      { username := "alice", email := "a@b.c", password := "pw",
        created_at := 0, updated_at := 0 }
      { id := 1, username := "alice", email := "a@b.c",
        created_at := formatTimestamp 0, updated_at := formatTimestamp 0 }
      (UserService.save [] 1
        { username := "alice", email := "a@b.c", password := "pw",
          created_at := 0, updated_at := 0 }).2
      (by rfl)
  · exact password_hashing_invariant.2.1 sampleUser1
      { password := some "pw" } "pw" rfl

/-! ### C10 — bulk_delete with partially missing ids -/

/-- C10: `bulk_delete` raises `UserNotFoundError` iff none of the listed
ids occurs in the table; otherwise (when the commit succeeds) it deletes
exactly the users whose ids are listed, silently ignoring the missing ids,
and returns the list of deleted ids — each a listed id of a stored user. -/
theorem bulk_delete_partial_ids (s : DBSession) (commit_ok : Bool)
    (ids : List Nat) :
    ((∃ msg s2, UserService.bulk_delete s commit_ok ids =
        .error (.userNotFound msg, s2)) ↔
      ∀ u ∈ s.pending, u.id ∉ ids) ∧
    (∀ ds s2, UserService.bulk_delete s commit_ok ids = .ok (ds, s2) →
      ds = (s.pending.filter (fun u => ids.contains u.id)).map (fun u => u.id) ∧
      s2.pending = s.pending.filter (fun u => ! ids.contains u.id) ∧
      s2.committed = s2.pending ∧
      (∀ d ∈ ds, d ∈ ids) ∧
      (∀ d ∈ ds, ∃ u ∈ s.pending, u.id = d)) := by
  constructor
  · constructor
    · rintro ⟨msg, s2, h⟩
      simp only [UserService.bulk_delete] at h
      split at h
      · next hemp =>
          simp at hemp
          exact hemp
      · cases commit_ok with
        | true => simp [DBSession.commit] at h
        | false => simp [DBSession.commit] at h
    · intro hall
      refine ⟨"No users found for the given IDs", s.rollback, ?_⟩
      have hemp : (s.pending.filter (fun u => ids.contains u.id)).isEmpty = true := by
        simp
        exact hall
      simp only [UserService.bulk_delete]
      rw [if_pos hemp]
  · intro ds s2 h
    simp only [UserService.bulk_delete] at h
    split at h
    · simp at h
    · cases commit_ok with
      | false => simp [DBSession.commit] at h
      | true =>
          simp [DBSession.commit] at h
          obtain ⟨h1, h2⟩ := h
          subst h1
          subst h2
          refine ⟨by simp, by simp, rfl, ?_, ?_⟩
          · intro d hd
            obtain ⟨u, hu, rfl⟩ := List.mem_map.mp hd
            have h4 := (List.mem_filter.mp hu).2
            simpa using h4
          · intro d hd
            obtain ⟨u, hu, rfl⟩ := List.mem_map.mp hd
            exact ⟨u, (List.mem_filter.mp hu).1, rfl⟩

/-- Witness for C10: all-missing ids raise not-found; a partially missing
list deletes exactly the present id. -/
theorem bulk_delete_partial_ids_witness :
    (∃ msg s2, UserService.bulk_delete
        { committed := [sampleUser1], pending := [sampleUser1] } true [7] =
      .error (.userNotFound msg, s2)) ∧
    (∀ d ∈ ([2] : List Nat), d ∈ ([2, 99] : List Nat)) := by
  constructor
  · exact (bulk_delete_partial_ids
      { committed := [sampleUser1], pending := [sampleUser1] } true [7]).1.mpr
      (by decide)
  · have h := (bulk_delete_partial_ids
      { committed := [sampleUser1, sampleUser2],
        pending := [sampleUser1, sampleUser2] } true [2, 99]).2 [2]
      { committed := [sampleUser1], pending := [sampleUser1] } (by rfl)
    exact h.2.2.2.1
